import Mathlib

/-!
# Verification of the sparkfun serial-capture utilities

Shallow embedding of the two Python capture scripts:

* `serbinlog.py` — frame-synchronized binary record logger: scan the byte
  stream for the sentinel `FF FF FF FF`, read an 8-byte payload, decode it as
  little-endian `uint32, uint16, uint16` (`struct.unpack('<LHH', data)`) and
  write one CSV line `"<ts>,<v1>,<v2>"` per record;
* `serlog.py` — line copier: read one line at a time, `strip()` it, and write
  it back followed by a single newline.

The serial byte source of `serbinlog.py` is modelled as a finite `List Nat`
of byte values; an exhausted list stands for the read timing out there:
`ord(ser.read(1))` and `struct.unpack` raise on the empty/short data a timed
out read returns, `except Exception` (with `traceback` imported) reaches
`break`, and the loop exits.  `serlog.py` is different: pyserial read
timeouts do not raise (`SerialTimeoutException` is a write-timeout
exception), so `ser.readline()` returns `''` on a silent interval and the
loop never exits on timeout; and its `except Exception` handler calls
`traceback.format_exc()` although `serlog.py` never imports `traceback`, so
any in-loop error raises `NameError` inside the handler, before the
`break` — `opfile.close()` is unreachable there.  Its input is therefore
modelled as a finite prefix of read results (returned line data, or a read
raising).  The session drivers are modelled as event traces so that
open/write/close ordering can be stated.
-/

/-- `START_SEQ = [0xFF, 0xFF, 0xFF, 0xFF]` from `serbinlog.py`. -/
def START_SEQ : List Nat := [0xFF, 0xFF, 0xFF, 0xFF]

/-- The loop body of `waitForStart`, with the stream made explicit.  `index`
is the match cursor into `START_SEQ`.  Each step reads one byte `data`; on
`data != START_SEQ[index]` the cursor resets to `0` and the byte is dropped
(`continue`); on a match the cursor advances, and when it reaches
`len(START_SEQ)` the function returns the rest of the stream.  An empty
stream is the read timing out. -/
def waitForStartAux : List Nat → Nat → Option (List Nat)
  | [], _ => none
  | data :: rest, index =>
    if data ≠ START_SEQ.getD index 0 then
      waitForStartAux rest 0
    else if index + 1 = START_SEQ.length then
      some rest
    else
      waitForStartAux rest (index + 1)

/-- `waitForStart(ser)`: scan from cursor `0`; `some rest` leaves the stream
positioned just past the matched sentinel. -/
def waitForStart (s : List Nat) : Option (List Nat) :=
  waitForStartAux s 0

/-- Little-endian value of a byte list, as `struct.unpack` assembles each
field: byte `k` carries weight `256 ^ k`. -/
def leWord : List Nat → Nat
  | [] => 0
  | b :: rest => b + 256 * leWord rest

/-- `struct.unpack('<LHH', data)`: requires exactly 8 bytes (otherwise
`struct.error` is raised, modelled as `none`), and splits them into a
little-endian `uint32` and two little-endian `uint16`s. -/
def unpackLHH (data : List Nat) : Option (Nat × Nat × Nat) :=
  if data.length = 8 then
    some (leWord (data.take 4), leWord ((data.drop 4).take 2), leWord (data.drop 6))
  else
    none

/-- `'{:d},{:d},{:d}'.format(ts, v1, v2)`: the three fields in decimal,
comma-separated. -/
def formatRecord (ts v1 v2 : Nat) : String :=
  Nat.repr ts ++ "," ++ Nat.repr v1 ++ "," ++ Nat.repr v2

/-- `readRecord(ser)`: wait for the start sequence, read 8 payload bytes and
decode them.  `none` models the exceptions that end the session (timeout
while scanning, or a short read making `struct.unpack` fail); `some (line,
rest)` returns the CSV text and the stream after the frame. -/
def readRecord (s : List Nat) : Option (String × List Nat) :=
  match waitForStart s with
  | none => none
  | some rest =>
    match unpackLHH (rest.take 8) with
    | none => none
    | some (ts, v1, v2) => some (formatRecord ts v1 v2, rest.drop 8)

/-- `waitForStartAux` always consumes at least one byte before returning. -/
theorem waitForStartAux_length {s : List Nat} {i : Nat} {t : List Nat}
    (h : waitForStartAux s i = some t) : t.length < s.length := by
  induction s generalizing i with
  | nil => simp [waitForStartAux] at h
  | cons b rest ih =>
    rw [waitForStartAux] at h
    split at h
    · exact Nat.lt_trans (ih h) (by simp)
    · split at h
      · simp_all
      · exact Nat.lt_trans (ih h) (by simp)

/-- `readRecord` strictly shrinks the stream when it succeeds. -/
theorem readRecord_length {s : List Nat} {line : String} {rest : List Nat}
    (h : readRecord s = some (line, rest)) : rest.length < s.length := by
  rw [readRecord] at h
  cases hw : waitForStart s with
  | none => simp [hw] at h
  | some t =>
    have ht : t.length < s.length := waitForStartAux_length hw
    cases hu : unpackLHH (t.take 8) with
    | none => simp [hw, hu] at h
    | some v =>
      obtain ⟨ts, v1, v2⟩ := v
      simp only [hw, hu] at h
      simp only [Option.some.injEq, Prod.mk.injEq] at h
      have hr : rest = t.drop 8 := h.2.symm
      subst hr
      exact Nat.lt_of_le_of_lt (by rw [List.length_drop]; omega) ht

/-- The `while True` logging loop of `serbinlog.main`: call `readRecord`,
append the line (the `write(s); write('\n')` pair) on success, break on the
exceptions modelled by `none`.  Returns the list of lines written. -/
def runSession (s : List Nat) : List String :=
  match h : readRecord s with
  | none => []
  | some (line, rest) => line :: runSession rest
termination_by s.length
decreasing_by exact readRecord_length h

/-- Python 2 `str.strip()` whitespace set (ASCII). -/
def pyIsSpace (c : Char) : Bool :=
  c = ' ' || c = '\t' || c = '\n' || c = '\r' || c = '\x0b' || c = '\x0c'

/-- Python `s.strip()`: removes whitespace from both ends of the line. -/
def pyStrip (l : List Char) : List Char :=
  ((l.dropWhile pyIsSpace).reverse.dropWhile pyIsSpace).reverse

/-- One iteration of the `serlog.main` loop body on a line read by
`ser.readline()`: `s = s.strip()`, then `opfile.write(s); opfile.write('\n')`.
The value is the text appended to the output file for this line. -/
def serlogOutputLine (l : List Char) : List Char :=
  pyStrip l ++ ['\n']

/-- One result of `ser.readline()` in `serlog.py`'s loop, with the
line-splitting delegated to the byte source.  pyserial read timeouts do not
raise: a timed-out read returns whatever arrived, so a silent interval
yields `line []`.  `SerialTimeoutException` is only raised by writes with a
write timeout, which this read-only loop never performs; a genuine failure
of the port raises an ordinary exception, `readError`. -/
inductive ReadResult where
  | line : List Char → ReadResult
  | readError : ReadResult
deriving DecidableEq

/-- How a finite prefix of `serlog.main`'s unbounded loop leaves the
session: still looping after consuming the supplied reads, or aborted by
the `NameError` that `print(traceback.format_exc())` raises in the
`except Exception` handler (`serlog.py` never imports `traceback`), which
propagates before the `break`. -/
inductive LineSessionExit where
  | stillRunning : LineSessionExit
  | crashed : LineSessionExit
deriving DecidableEq

/-- The `while True` loop of `serlog.main` over a finite prefix of read
results.  Each returned line (empty on a timeout) is stripped and written
back with a newline appended, and the loop continues — there is no exit on
timeout.  A read error reaches the `except Exception` handler, which itself
raises `NameError` before the `break`, aborting the session with
`opfile.close()` never executed.  Returns the texts written, in order, and
how the loop was left. -/
def runLineSession : List ReadResult → List (List Char) × LineSessionExit
  | [] => ([], LineSessionExit.stillRunning)
  | ReadResult.line l :: rest =>
    (serlogOutputLine l :: (runLineSession rest).1, (runLineSession rest).2)
  | ReadResult.readError :: _ => ([], LineSessionExit.crashed)

/-- Observable resource/write actions of a session driver (`main` of either
script).  `closeSerial` is included so that absence of a serial-port close
can be stated; neither script ever performs it. -/
inductive Event where
  | openSerial : Event
  | openFile : Event
  | writeLine : String → Event
  | closeSerial : Event
  | closeFile : Event
deriving DecidableEq

/-- Event trace of `serbinlog.main`.  `serOk` and `fileOk` say whether
`serial.Serial(...)` and `open(filename, 'w')` succeed; a failed open raises
`IOError`, printed and followed by `exit(1)` before anything else is opened.
With both open, the loop runs to its break and then `opfile.close()` runs.
No `ser.close()` call exists in the source. -/
def mainTrace (serOk fileOk : Bool) (s : List Nat) : List Event :=
  if serOk = false then
    []
  else if fileOk = false then
    [Event.openSerial]
  else
    Event.openSerial :: Event.openFile ::
      ((runSession s).map Event.writeLine ++ [Event.closeFile])

/-- Event trace of `serlog.main`: the opens as in the binary variant, then
the loop's writes.  No close event can occur: the loop never exits normally
(timeouts keep it running), the error path dies inside the handler before
`break`, so the final `opfile.close()` is unreachable, and no `ser.close()`
exists in the source. -/
def lineMainTrace (serOk fileOk : Bool) (reads : List ReadResult) : List Event :=
  if serOk = false then
    []
  else if fileOk = false then
    [Event.openSerial]
  else
    Event.openSerial :: Event.openFile ::
      ((runLineSession reads).1.map (fun l => Event.writeLine (String.mk l)))

/-- The little-endian serialization the spec's round-trip property refers to
(`struct.pack('<LHH', ts, v1, v2)`): each field laid out least-significant
byte first, `uint32` then the two `uint16`s. -/
def packLHH (ts v1 v2 : Nat) : List Nat :=
  [ts % 256, ts / 256 % 256, ts / 65536 % 256, ts / 16777216 % 256,
   v1 % 256, v1 / 256 % 256,
   v2 % 256, v2 / 256 % 256]

/-- C2: for every 8-byte payload, decoding is pure with
`timestamp = b0 + b1*256 + b2*65536 + b3*16777216`, `v1 = b4 + b5*256`,
`v2 = b6 + b7*256`, the record text is the decimal rendering
`"<timestamp>,<v1>,<v2>"` with nothing else, and the payload
`00 00 00 00 01 00 02 00` yields the text `"0,1,2"`. -/
theorem unpackLHH_littleEndian_and_format (b0 b1 b2 b3 b4 b5 b6 b7 : Nat) :
    unpackLHH [b0, b1, b2, b3, b4, b5, b6, b7] =
      some (b0 + b1 * 256 + b2 * 65536 + b3 * 16777216, b4 + b5 * 256, b6 + b7 * 256) ∧
    readRecord (START_SEQ ++ [b0, b1, b2, b3, b4, b5, b6, b7]) =
      some (Nat.repr (b0 + b1 * 256 + b2 * 65536 + b3 * 16777216) ++ "," ++
              Nat.repr (b4 + b5 * 256) ++ "," ++ Nat.repr (b6 + b7 * 256),
            []) ∧
    readRecord (START_SEQ ++ [0, 0, 0, 0, 1, 0, 2, 0]) = some ("0,1,2", []) := by
  have h1 : b0 + 256 * (b1 + 256 * (b2 + 256 * (b3 + 256 * 0))) =
      b0 + b1 * 256 + b2 * 65536 + b3 * 16777216 := by ring
  have h2 : b4 + 256 * (b5 + 256 * 0) = b4 + b5 * 256 := by ring
  have h3 : b6 + 256 * (b7 + 256 * 0) = b6 + b7 * 256 := by ring
  have e1 : unpackLHH [b0, b1, b2, b3, b4, b5, b6, b7] =
      some (b0 + 256 * (b1 + 256 * (b2 + 256 * (b3 + 256 * 0))),
            b4 + 256 * (b5 + 256 * 0), b6 + 256 * (b7 + 256 * 0)) := rfl
  have e2 : readRecord (START_SEQ ++ [b0, b1, b2, b3, b4, b5, b6, b7]) =
      some (formatRecord (b0 + 256 * (b1 + 256 * (b2 + 256 * (b3 + 256 * 0))))
              (b4 + 256 * (b5 + 256 * 0)) (b6 + 256 * (b7 + 256 * 0)),
            []) := rfl
  refine ⟨?_, ?_, by decide⟩
  · rw [e1, h1, h2, h3]
  · rw [e2, h1, h2, h3]
    rfl

/-- C3: decoding an 8-byte payload and re-encoding the three fields with the
same little-endian layout recovers the original bytes. -/
theorem unpack_pack_roundtrip (b0 b1 b2 b3 b4 b5 b6 b7 : Nat)
    (h0 : b0 < 256) (h1 : b1 < 256) (h2 : b2 < 256) (h3 : b3 < 256)
    (h4 : b4 < 256) (h5 : b5 < 256) (h6 : b6 < 256) (h7 : b7 < 256) :
    (unpackLHH [b0, b1, b2, b3, b4, b5, b6, b7]).map
        (fun r => packLHH r.1 r.2.1 r.2.2) =
      some [b0, b1, b2, b3, b4, b5, b6, b7] := by
  have e1 : unpackLHH [b0, b1, b2, b3, b4, b5, b6, b7] =
      some (b0 + 256 * (b1 + 256 * (b2 + 256 * (b3 + 256 * 0))),
            b4 + 256 * (b5 + 256 * 0), b6 + 256 * (b7 + 256 * 0)) := rfl
  rw [e1]
  simp only [Option.map_some', packLHH, Option.some.injEq, List.cons.injEq, and_true]
  refine ⟨by omega, by omega, by omega, by omega, by omega, by omega, by omega, by omega⟩

/-- Witness for `unpack_pack_roundtrip` at the payload `00 01 02 03 04 05 06 FF`. -/
theorem unpack_pack_roundtrip_witness :
    (unpackLHH [0, 1, 2, 3, 4, 5, 6, 255]).map
        (fun r => packLHH r.1 r.2.1 r.2.2) =
      some [0, 1, 2, 3, 4, 5, 6, 255] :=
  unpack_pack_roundtrip 0 1 2 3 4 5 6 255 (by decide) (by decide) (by decide)
    (by decide) (by decide) (by decide) (by decide) (by decide)

/-- C4: on a byte that differs from `START_SEQ[index]`, the scanner resets
the cursor to `0` and drops that byte: the remaining computation is exactly
the scan of the rest of the stream from cursor `0`, so the mismatching byte
is never re-tested against `START_SEQ[0]`. -/
theorem waitForStartAux_mismatch_resets (data : Nat) (rest : List Nat) (index : Nat)
    (h : data ≠ START_SEQ.getD index 0) :
    waitForStartAux (data :: rest) index = waitForStartAux rest 0 := by
  rw [waitForStartAux]
  exact if_pos h

/-- Witness for `waitForStartAux_mismatch_resets`: byte `0x00` against cursor
position `2`. -/
theorem waitForStartAux_mismatch_resets_witness :
    waitForStartAux [0] 2 = waitForStartAux [] 0 :=
  waitForStartAux_mismatch_resets 0 [] 2 (by decide)

/-- C5: when the stream ends after the sentinel was matched but before 8
payload bytes arrive, `readRecord` fails without emitting anything and the
logging loop ends at once: the session writes zero lines. -/
theorem short_payload_no_output (s t : List Nat)
    (h1 : waitForStart s = some t) (h2 : t.length < 8) :
    readRecord s = none ∧ runSession s = [] := by
  have hu : unpackLHH (t.take 8) = none := by
    rw [unpackLHH, if_neg]
    simp only [List.length_take]
    omega
  have hr : readRecord s = none := by
    rw [readRecord]
    simp only [h1, hu]
  refine ⟨hr, ?_⟩
  rw [runSession.eq_def]
  split
  · rfl
  · next line rest heq => rw [hr] at heq; exact absurd heq (by simp)

/-- Witness for `short_payload_no_output`: sentinel followed by one byte. -/
theorem short_payload_no_output_witness :
    readRecord [255, 255, 255, 255, 9] = none ∧
      runSession [255, 255, 255, 255, 9] = [] :=
  short_payload_no_output [255, 255, 255, 255, 9] [9] (by decide) (by decide)

/-- Auxiliary for C1.  Being at cursor `i` is observationally the same as
having just consumed `i` sentinel bytes.  If no sentinel occurrence ends
within the already-consumed bytes, `pre`, or the first 3 bytes of the
sentinel that follows `pre`, then the scan runs through all of `pre` and
returns exactly the bytes after the sentinel. -/
theorem waitForStartAux_first_hit (pre : List Nat) :
    ∀ i post, i ≤ 3 →
      ¬ START_SEQ <:+: (List.replicate i 0xFF ++ pre ++ START_SEQ.take 3) →
      waitForStartAux (pre ++ START_SEQ ++ post) i = some post := by
  induction pre with
  | nil =>
    intro i post hi h
    interval_cases i
    · rfl
    · exact absurd ⟨[], [], by decide⟩ h
    · exact absurd ⟨[], [255], by decide⟩ h
    · exact absurd ⟨[], [255, 255], by decide⟩ h
  | cons b pre ih =>
    intro i post hi h
    have hgd : START_SEQ.getD i 0 = 255 := by interval_cases i <;> rfl
    simp only [List.cons_append]
    rw [waitForStartAux]
    by_cases hb : b = 255
    · subst hb
      rw [hgd]
      simp only [ne_eq, not_true_eq_false, if_false]
      rcases Nat.lt_or_ge i 3 with hi3 | hi3
      · have hne : ¬ (i + 1 = START_SEQ.length) := by
          simp only [START_SEQ, List.length_cons, List.length_nil]
          omega
        rw [if_neg hne]
        refine ih (i + 1) post (by omega) ?_
        intro hocc
        refine h ?_
        have hrep : List.replicate i 0xFF ++ (255 :: pre) ++ START_SEQ.take 3 =
            List.replicate (i + 1) 0xFF ++ pre ++ START_SEQ.take 3 := by
          simp [List.replicate_succ', List.append_assoc]
        rw [hrep]
        exact hocc
      · have hieq : i = 3 := by omega
        subst hieq
        exact absurd ⟨[], pre ++ START_SEQ.take 3, by simp [START_SEQ]⟩ h
    · rw [if_pos (by rw [hgd]; exact hb)]
      refine ih 0 post (by omega) ?_
      intro hocc
      obtain ⟨u, v, huv⟩ := hocc
      refine h ⟨List.replicate i 0xFF ++ b :: u, v, ?_⟩
      simp only [List.replicate_zero, List.nil_append] at huv
      simp only [List.append_assoc] at huv ⊢
      simp [huv]

/-- C1: for every stream `pre ++ START_SEQ ++ post` in which no sentinel
occurrence ends before the end of this `START_SEQ` (i.e. this is the first
occurrence, whatever partial matches `pre` contains), `waitForStart`
succeeds positioned exactly after the last sentinel byte. -/
theorem waitForStart_first_sentinel (pre post : List Nat)
    (h : ¬ START_SEQ <:+: pre ++ START_SEQ.take 3) :
    waitForStart (pre ++ START_SEQ ++ post) = some post :=
  waitForStartAux_first_hit pre 0 post (by omega) (by simpa using h)

/-- Witness for `waitForStart_first_sentinel`: junk with a partial sentinel
match (`FF FF 00`) before the real sentinel. -/
theorem waitForStart_first_sentinel_witness :
    waitForStart ([255, 255, 0] ++ START_SEQ ++ [1, 2]) = some [1, 2] :=
  waitForStart_first_sentinel [255, 255, 0] [1, 2] (by decide)

/-- The design alternative named in the spec (§4.1): on a mismatch, instead
of discarding the byte, reset the cursor and re-test the same byte against
`START_SEQ[0]` before moving on. -/
def waitForStartRetestAux : List Nat → Nat → Option (List Nat)
  | [], _ => none
  | data :: rest, index =>
    if data = START_SEQ.getD index 0 then
      if index + 1 = START_SEQ.length then some rest
      else waitForStartRetestAux rest (index + 1)
    else if data = START_SEQ.getD 0 0 then
      if 1 = START_SEQ.length then some rest
      else waitForStartRetestAux rest 1
    else
      waitForStartRetestAux rest 0

/-- The re-testing variant scanner, started at cursor `0`. -/
def waitForStartRetest (s : List Nat) : Option (List Nat) :=
  waitForStartRetestAux s 0

/-- For the all-`0xFF` sentinel the two scanners agree step by step at every
reachable cursor: a byte that mismatches `START_SEQ[index] = 0xFF` also
mismatches `START_SEQ[0] = 0xFF`, so the re-test never fires. -/
theorem waitForStartAux_retest_agree (s : List Nat) :
    ∀ i, i ≤ 3 → waitForStartAux s i = waitForStartRetestAux s i := by
  induction s with
  | nil => intro i _; rfl
  | cons b rest ih =>
    intro i hi
    have hgd : START_SEQ.getD i 0 = 255 := by interval_cases i <;> rfl
    rw [waitForStartAux, waitForStartRetestAux, hgd]
    by_cases hb : b = 255
    · subst hb
      simp only [ne_eq, not_true_eq_false, if_false, eq_self_iff_true, if_true]
      by_cases hi4 : i + 1 = START_SEQ.length
      · rw [if_pos hi4, if_pos hi4]
      · rw [if_neg hi4, if_neg hi4]
        refine ih (i + 1) ?_
        simp only [START_SEQ, List.length_cons, List.length_nil] at hi4
        omega
    · rw [if_pos hb, if_neg hb]
      have hgd0 : START_SEQ.getD 0 0 = 255 := rfl
      rw [hgd0, if_neg hb]
      exact ih 0 (by omega)

/-- C10: with the all-`0xFF` sentinel the reset-on-mismatch scanner of
`serbinlog.py` and the re-testing variant are observationally equivalent:
on every byte stream they return the same result, consuming the same
prefix. -/
theorem waitForStart_retest_equiv (s : List Nat) :
    waitForStart s = waitForStartRetest s :=
  waitForStartAux_retest_agree s 0 (by omega)

/-- The binary-variant loop writes nothing on an exhausted stream. -/
theorem runSession_nil : runSession [] = [] := by
  rw [runSession.eq_def]
  split
  · rfl
  · next line rest heq => simp [show readRecord [] = none from rfl] at heq

/-- No event produced by mapping `f` over a list can be counted for an
event outside the range of `f`. -/
theorem count_map_ne {α : Type} (f : α → Event) (e : Event)
    (h : ∀ a, f a ≠ e) (L : List α) : (L.map f).count e = 0 := by
  rw [List.count_eq_zero]
  intro hmem
  obtain ⟨x, _, hx⟩ := List.mem_map.mp hmem
  exact h x hx

/-- No session of `serlog.main` ever closes the output file: its
`opfile.close()` line is unreachable. -/
theorem closeFile_not_mem_lineMainTrace (serOk fileOk : Bool)
    (reads : List ReadResult) :
    Event.closeFile ∉ lineMainTrace serOk fileOk reads := by
  cases serOk with
  | false => simp [lineMainTrace]
  | true =>
    cases fileOk with
    | false => simp [lineMainTrace]
    | true => simp [lineMainTrace]

/-- C6 fails on `serlog.py` (code bug): at the failing input — a session
whose read raises an I/O error — the `except Exception` handler itself
raises `NameError` (`traceback.format_exc()` with `traceback` never
imported), the session aborts, and the opened file is never closed.  In
`serbinlog.py`, which does import `traceback`, the loop exit does reach
`opfile.close()`: its trace ends with the close. -/
theorem serlog_error_bypasses_close :
    (runLineSession [ReadResult.readError]).2 = LineSessionExit.crashed ∧
    Event.openFile ∈ lineMainTrace true true [ReadResult.readError] ∧
    Event.closeFile ∉ lineMainTrace true true [ReadResult.readError] ∧
    mainTrace true true [] =
      [Event.openSerial, Event.openFile, Event.closeFile] := by
  refine ⟨by decide, by decide, by decide, ?_⟩
  simp [mainTrace, runSession_nil]

/-- C7 counterexample: the binary-variant session opens the serial port but
its trace contains no serial-close action at all — `serbinlog.py` (like
`serlog.py`) never calls `ser.close()`, so the stream handle is not closed
exactly once as claimed. -/
theorem serial_never_closed_counterexample :
    Event.openSerial ∈ mainTrace true true [] ∧
      (mainTrace true true []).count Event.closeSerial = 0 := by
  have ht : mainTrace true true [] =
      [Event.openSerial, Event.openFile, Event.closeFile] := by
    simp [mainTrace, runSession_nil]
  rw [ht]
  exact ⟨by decide, by decide⟩

/-- C7 amended: in every session of either variant, the serial stream and
the output file are each opened at most once and the stream is never
explicitly closed by the program (no `ser.close()` exists).  In the binary
variant the file, once opened, is closed exactly once.  In the line-copy
variant the file is never closed either: `serlog.py`'s `opfile.close()` is
unreachable (timeouts keep the loop running; the error handler crashes
before `break`). -/
theorem handles_open_close_amended (serOk fileOk : Bool) (s : List Nat)
    (reads : List ReadResult) :
    ((mainTrace serOk fileOk s).count Event.openSerial ≤ 1 ∧
     (mainTrace serOk fileOk s).count Event.openFile ≤ 1 ∧
     (mainTrace serOk fileOk s).count Event.closeFile =
       (if Event.openFile ∈ mainTrace serOk fileOk s then 1 else 0) ∧
     (mainTrace serOk fileOk s).count Event.closeSerial = 0) ∧
    ((lineMainTrace serOk fileOk reads).count Event.openSerial ≤ 1 ∧
     (lineMainTrace serOk fileOk reads).count Event.openFile ≤ 1 ∧
     (lineMainTrace serOk fileOk reads).count Event.closeFile = 0 ∧
     (lineMainTrace serOk fileOk reads).count Event.closeSerial = 0) := by
  have hw1 : ∀ e : Event, (∀ str, Event.writeLine str ≠ e) →
      ((runSession s).map Event.writeLine).count e = 0 := fun e he =>
    count_map_ne _ _ he _
  have hw2 : ∀ e : Event, (∀ str, Event.writeLine str ≠ e) →
      ((runLineSession reads).1.map
        (fun l => Event.writeLine (String.mk l))).count e = 0 := fun e he =>
    count_map_ne _ _ (fun l => he (String.mk l)) _
  cases serOk with
  | false => simp [mainTrace, lineMainTrace]
  | true =>
    cases fileOk with
    | false => simp [mainTrace, lineMainTrace]
    | true =>
      simp [mainTrace, lineMainTrace, List.count_cons, List.count_append,
        hw1 Event.openSerial (by intro str h; cases h),
        hw1 Event.openFile (by intro str h; cases h),
        hw1 Event.closeFile (by intro str h; cases h),
        hw1 Event.closeSerial (by intro str h; cases h),
        hw2 Event.openSerial (by intro str h; cases h),
        hw2 Event.openFile (by intro str h; cases h),
        hw2 Event.closeFile (by intro str h; cases h),
        hw2 Event.closeSerial (by intro str h; cases h)]

/-- The transformation C8 asserts for each line: strip trailing whitespace
only, leaving the rest of the content unchanged. -/
def rstripOnly (l : List Char) : List Char :=
  (l.reverse.dropWhile pyIsSpace).reverse

/-- C8 counterexample: on the line `" x\n"` the program writes `"x\n"` —
`str.strip()` removes the leading space as well — not the `" x\n"` the
claim predicts (trailing strip only). -/
theorem strip_removes_leading_counterexample :
    (runLineSession [ReadResult.line [' ', 'x', '\n']]).1 ≠
      [rstripOnly [' ', 'x', '\n'] ++ ['\n']] := by
  decide

/-- C8 amended: every written line is the input line with *both* leading and
trailing whitespace stripped and a single newline appended; the spec's own
example `"hello world  \n"` still maps to `"hello world\n"`. -/
theorem line_copy_strips_both_ends (lines : List (List Char)) :
    (runLineSession (lines.map ReadResult.line)).1 =
      lines.map (fun l => rstripOnly (l.dropWhile pyIsSpace) ++ ['\n']) ∧
    serlogOutputLine "hello world  \n".toList = "hello world\n".toList ∧
    serlogOutputLine "  leading\n".toList = "leading\n".toList := by
  refine ⟨?_, by decide, by decide⟩
  induction lines with
  | nil => rfl
  | cons l rest ih =>
    simp only [List.map_cons]
    show serlogOutputLine l :: (runLineSession (rest.map ReadResult.line)).1 = _
    rw [ih]
    rfl

/-- C9 fails on `serlog.py` (code bug): a silent input does not end the
session.  Each timed-out `readline` returns the empty line, which the loop
strips and writes back as a bare newline: after `n` silent reads the file
holds `n` newline characters — not empty — the loop is still running, and
the file was never closed.  The binary variant behaves as the claim says:
on a zero-byte stream it writes zero lines and its trace opens and then
closes the file. -/
theorem silent_input_divergence (n : Nat) :
    (runLineSession (List.replicate n (ReadResult.line []))).1 =
      List.replicate n ['\n'] ∧
    (runLineSession (List.replicate n (ReadResult.line []))).2 =
      LineSessionExit.stillRunning ∧
    Event.closeFile ∉
      lineMainTrace true true (List.replicate n (ReadResult.line [])) ∧
    runSession [] = [] ∧
    mainTrace true true [] =
      [Event.openSerial, Event.openFile, Event.closeFile] := by
  have h1 : ∀ m : Nat, runLineSession (List.replicate m (ReadResult.line [])) =
      (List.replicate m ['\n'], LineSessionExit.stillRunning) := by
    intro m
    induction m with
    | zero => rfl
    | succ k ih =>
      simp only [List.replicate_succ, runLineSession, ih]
      rfl
  refine ⟨by rw [h1], by rw [h1],
    closeFile_not_mem_lineMainTrace true true _, runSession_nil, ?_⟩
  simp [mainTrace, runSession_nil]
